import Mathlib

/-!
Shallow embedding of the Advent-of-Code scripts of this repository
(src/day-01, src/day-04, src/day-05 and src/2021/day-03), together with
theorems settling the specification claims about them.

JavaScript numbers are modelled as `Option Int`: `some n` is an ordinary
integer value and `none` is `NaN`.  Machine floats do not occur: every
number in these scripts is produced by `Number(...)` on a decimal string
or by integer arithmetic on such values.
-/

/-- A JavaScript number restricted to the integer/NaN domain occurring in
these scripts: `some n` is the integer `n`, `none` is `NaN`. -/
abbrev JSNum := Option Int

/-- JS `+` on such numbers: `NaN` contaminates. -/
def jsAdd (a b : JSNum) : JSNum :=
  match a, b with
  | some x, some y => some (x + y)
  | _, _ => none

/-- JS `*` on such numbers: `NaN` contaminates. -/
def jsMul (a b : JSNum) : JSNum :=
  match a, b with
  | some x, some y => some (x * y)
  | _, _ => none

/-- JS `>` on such numbers: `a > b` is false whenever either side is
`NaN`. -/
def jsGt (a b : JSNum) : Bool :=
  match a, b with
  | some x, some y => decide (y < x)
  | _, _ => false

/-- JS loose equality `==` between two such numbers: `NaN` is equal to
nothing, not even itself. -/
def jsEqNum (a b : JSNum) : Bool :=
  match a, b with
  | some x, some y => x == y
  | _, _ => false

/-- The domain on which the integer model of a JavaScript number is
exact: not `NaN`, and of magnitude at most `2^51`, so that every sum of
up to three such values stays below `2^53` and IEEE-754 double addition
and comparison coincide with exact integer arithmetic. -/
def exactDouble (x : JSNum) : Bool :=
  match x with
  | some k => decide (k.natAbs ≤ 2 ^ 51)
  | none => false

/-- Strings are modelled as lists of characters, so that every string
operation of the scripts reduces inside the kernel. -/
abbrev Str := List Char

/-- JavaScript `s.split(sep)` for a one-character separator, keeping empty
pieces: `"".split(c) = [""]`, `"a\n".split('\n') = ["a", ""]`. -/
def jsSplit (sep : Char) : Str → List Str
  | [] => [[]]
  | c :: cs =>
    match jsSplit sep cs with
    | [] => if c = sep then [[], []] else [[c]]
    | h :: t => if c = sep then [] :: h :: t else (c :: h) :: t

/-- JavaScript `s.split(/\s+/).filter(Boolean)` (as used by the day-04
`Board` constructor): the non-empty maximal runs of non-whitespace
characters, in order.  Splitting on every single whitespace character and
then dropping the empty pieces is extensionally the same as splitting on
whitespace runs and dropping the (boundary) empty pieces. -/
def jsSplitWsFiltered (cs : Str) : List Str :=
  (cs.splitOnP (·.isWhitespace)).filter (· ≠ [])

/-- JavaScript string trim: drop whitespace from both ends. -/
def jsTrim (cs : Str) : Str :=
  ((cs.dropWhile (·.isWhitespace)).reverse.dropWhile (·.isWhitespace)).reverse

/-- Value of a list of decimal digit characters. -/
def natOfDigits (ds : List Char) : Nat :=
  ds.foldl (fun a c => a * 10 + (c.toNat - 48)) 0

/-- Models JavaScript `Number(s)` on the string domain occurring in this
repository: after trimming whitespace, the empty string converts to `0`, an
optional sign followed by one or more decimal digits converts to that
integer, and anything else converts to `NaN` (`none`).  (Float, hex and
exponent literals never occur in these puzzle inputs and are outside the
modelled domain.) -/
def jsNumber (s : Str) : JSNum :=
  match jsTrim s with
  | [] => some 0
  | '-' :: rest =>
      if rest ≠ [] ∧ rest.all (·.isDigit) then some (-(natOfDigits rest : Int)) else none
  | '+' :: rest =>
      if rest ≠ [] ∧ rest.all (·.isDigit) then some (natOfDigits rest : Int) else none
  | c :: rest =>
      if (c :: rest).all (·.isDigit) then some (natOfDigits (c :: rest) : Int) else none

namespace Day01

/-- `part1` of src/day-01/index.js: for `i` from `0` to `data.length - 2`,
count the indices where `data[i + 1] > data[i]`. -/
def part1 (data : List Int) : Nat :=
  (List.range (data.length - 1)).countP
    (fun i => data.getD i 0 < data.getD (i + 1) 0)

/-- `part2` of src/day-01/index.js: for `i` from `0` to `data.length - 4`,
count the indices where the 3-wide window sum starting at `i + 1` exceeds
the one starting at `i`. -/
def part2 (data : List Int) : Nat :=
  (List.range (data.length - 3)).countP
    (fun i =>
      data.getD (i + 0) 0 + data.getD (i + 1) 0 + data.getD (i + 2) 0 <
      data.getD (i + 1) 0 + data.getD (i + 2) 0 + data.getD (i + 3) 0)

/-- The line "parser" of src/day-01/index.js: `raw.split('\n').map(Number)`.
It is total: a malformed line is converted to `NaN`, never rejected. -/
def parseLines (raw : Str) : List JSNum :=
  (jsSplit '\n' raw).map jsNumber

end Day01

example : Day01.part1 [199, 200, 208, 210, 200, 207, 240, 269, 260, 263] = 7 := by decide
example : Day01.part2 [199, 200, 208, 210, 200, 207, 240, 269, 260, 263] = 5 := by decide
example : Day01.parseLines "abc\n5".toList = [none, some 5] := by decide

namespace Dive

/-- A parsed instruction of the dive script (the second document of
src/day-05/index.js): a direction string and a magnitude.  (The magnitudes
in the claims are ordinary integers, so `num` is `Int` rather than a
`NaN`-able number.) -/
structure Instruction where
  dir : Str
  num : Int
deriving DecidableEq

/-- `part1` of the dive script: fold over the instructions updating
`(depth, horizontal)` by the `switch` on the direction string (a string
that is none of `forward`/`up`/`down` changes nothing), then return
`depth * horizontal`. -/
def part1 (data : List Instruction) : Int :=
  let s := data.foldl
    (fun (st : Int × Int) inst =>
      if inst.dir = "forward".toList then (st.1, st.2 + inst.num)
      else if inst.dir = "up".toList then (st.1 - inst.num, st.2)
      else if inst.dir = "down".toList then (st.1 + inst.num, st.2)
      else st)
    (0, 0)
  s.1 * s.2

/-- `part2` of the dive script: fold updating `(aim, depth, horizontal)`;
`up`/`down` change the aim, `forward` advances and dives by
`num * aim`; returns `depth * horizontal`. -/
def part2 (data : List Instruction) : Int :=
  let s := data.foldl
    (fun (st : Int × Int × Int) inst =>
      if inst.dir = "up".toList then (st.1 - inst.num, st.2.1, st.2.2)
      else if inst.dir = "down".toList then (st.1 + inst.num, st.2.1, st.2.2)
      else if inst.dir = "forward".toList then
        (st.1, st.2.1 + inst.num * st.1, st.2.2 + inst.num)
      else st)
    (0, 0, 0)
  s.2.1 * s.2.2

/-- The example instruction list of the spec:
`forward 5, down 5, forward 8, up 3, down 8, forward 2`. -/
def exampleCourse : List Instruction :=
  [⟨"forward".toList, 5⟩, ⟨"down".toList, 5⟩, ⟨"forward".toList, 8⟩,
   ⟨"up".toList, 3⟩, ⟨"down".toList, 8⟩, ⟨"forward".toList, 2⟩]

end Dive

example : Dive.part1 Dive.exampleCourse = 150 := by decide
example : Dive.part2 Dive.exampleCourse = 900 := by decide

namespace Day03

/-- `getCommons` of src/2021/day-03/index.js: for each character position
`i` of the first string, compare the number of strings carrying `'1'` at
`i` with the number carrying `'0'` there, and produce `'1'` when ones are
at least as frequent, else `'0'`.  (In the source, a character other than
`'0'`/`'1'` — including the out-of-range `undefined` — increments a junk
property of the `counts` object and so affects neither count.) -/
def getCommons (arr : List Str) : List Char :=
  (List.range (arr.headD []).length).map (fun i =>
    let ones := arr.countP (fun s => s.get? i == some '1')
    let zeros := arr.countP (fun s => s.get? i == some '0')
    if ones ≥ zeros then '1' else '0')

/-- JavaScript `parseInt(arr, 2)` where `arr` is an array of strings: the
array is coerced to its comma-joined string, and the leading run of binary
digits is parsed (`NaN` when that run is empty).  Since `','` is not a
binary digit, this is the leading binary-digit run of the first element
(or `NaN` for an empty array). -/
def jsParseIntBin (arr : List Str) : JSNum :=
  let ds := (arr.headD []).takeWhile (fun c => c = '0' ∨ c = '1')
  if ds = [] then none
  else some ((ds.foldl (fun a c => a * 2 + (if c = '1' then 1 else 0)) 0 : Nat) : Int)

/-- The filtering loop of `part2` of src/2021/day-03/index.js: for `i`
from `0` to `w - 1`, filter the surviving oxygen candidates by agreement
with their current most-common character at `i` (only while more than one
survives), and the carbon candidates by disagreement (likewise).
Characters are compared as JavaScript `==` on possibly-`undefined` values:
two out-of-range reads compare equal. -/
def part2Filter (w : Nat) (data : List Str) : List Str × List Str :=
  (List.range w).foldl
    (fun (st : List Str × List Str) i =>
      let ox :=
        if st.1.length > 1 then
          let c := getCommons st.1
          st.1.filter (fun bin => bin.get? i == c.get? i)
        else st.1
      let co :=
        if st.2.length > 1 then
          let c := getCommons st.2
          st.2.filter (fun bin => bin.get? i != c.get? i)
        else st.2
      (ox, co))
    (data, data)

/-- `part2` of src/2021/day-03/index.js: run the filter over the width of
the first string, then multiply the `parseInt(..., 2)` values of the two
surviving candidate arrays. -/
def part2 (data : List Str) : JSNum :=
  let w := (data.headD []).length
  let p := part2Filter w data
  jsMul (jsParseIntBin p.1) (jsParseIntBin p.2)

end Day03

example :
    Day03.part2 ["00100".toList, "11110".toList, "10110".toList, "10111".toList,
      "10101".toList, "01111".toList, "00111".toList, "11100".toList, "10000".toList,
      "11001".toList, "00010".toList, "01010".toList] = some 230 := by decide

namespace Day05

/-- An element of a JavaScript array of numbers as the vents script uses
them: a missing element (a hole, read back as `undefined`), the value
`NaN`, or an integer. -/
inductive JSCell where
  | hole
  | nan
  | num (n : Int)
deriving DecidableEq

/-- A parsed line segment of src/day-05/index.js (the regex only matches
digit runs, so all coordinates are non-negative). -/
structure Line where
  xs : Nat
  ys : Nat
  xe : Nat
  ye : Nat
deriving DecidableEq

/-- The `range` generator of src/day-05/index.js: both endpoints
inclusive, ascending or descending as needed (step 1 as used). -/
def jsRange (start stop : Nat) : List Nat :=
  if start ≤ stop then (List.range (stop - start + 1)).map (start + ·)
  else (List.range (start - stop + 1)).map (fun k => start - k)

/-- Reading `a[i]` from a JavaScript array: out of range gives a hole
(`undefined`). -/
def jsGetArr (l : List JSCell) (i : Nat) : JSCell :=
  l.getD i .hole

/-- Writing `a[i] = v` to a JavaScript array: writing past the end grows
the array, the skipped positions becoming holes. -/
def jsSetArr (l : List JSCell) (i : Nat) (v : JSCell) : List JSCell :=
  if i < l.length then l.set i v
  else l ++ List.replicate (i - l.length) .hole ++ [v]

/-- `board[i] += 1`: `undefined + 1` and `NaN + 1` are both `NaN`. -/
def jsIncr (l : List JSCell) (i : Nat) : List JSCell :=
  jsSetArr l i
    (match jsGetArr l i with
     | .num k => .num (k + 1)
     | _ => .nan)

/-- `run` of src/day-05/index.js.  The board dimensions are the maxima of
the coordinates plus one; the board is a flat array of length `w * h`
indexed by `x * w + y`; each straight segment (and, when `diagonals` is
set, each diagonal segment, walking its two coordinate ranges in lockstep
for `|xs - xe| + 1` steps) increments its cells; the result is the number
of array elements that are at least `2` (`filter` skips holes, and
`NaN >= 2` is false). -/
def run (lines : List Line) (diagonals : Bool) : Nat :=
  let wh := lines.foldl
    (fun (p : Nat × Nat) l => (max (max p.1 l.xs) l.xe, max (max p.2 l.ys) l.ye))
    (0, 0)
  let w := wh.1 + 1
  let board := List.replicate (w * (wh.2 + 1)) (JSCell.num 0)
  let board := lines.foldl
    (fun b l =>
      if l.xs = l.xe ∨ l.ys = l.ye then
        if l.xs = l.xe then
          (jsRange l.ys l.ye).foldl (fun b n => jsIncr b (l.xs * w + n)) b
        else
          (jsRange l.xs l.xe).foldl (fun b n => jsIncr b (n * w + l.ys)) b
      else if diagonals then
        let xr := jsRange l.xs l.xe
        let yr := jsRange l.ys l.ye
        (List.range (max l.xs l.xe - min l.xs l.xe + 1)).foldl
          (fun b i => jsIncr b ((xr.getD i 0) * w + (yr.getD i 0))) b
      else b)
    board
  (board.filter (fun c => match c with | .num k => 2 ≤ k | _ => false)).length

/-- `part1` of src/day-05/index.js: straight segments only. -/
def part1 (data : List Line) : Nat :=
  run data false

/-- `part2` of src/day-05/index.js: straight and diagonal segments. -/
def part2 (data : List Line) : Nat :=
  run data true

/-- The grid cells a segment covers, read off the same traversal `run`
performs: a straight segment covers the cells between its endpoints, a
diagonal one the lockstep pairs of its two coordinate ranges. -/
def pointsOf (l : Line) : List (Nat × Nat) :=
  if l.xs = l.xe ∨ l.ys = l.ye then
    if l.xs = l.xe then (jsRange l.ys l.ye).map (fun n => (l.xs, n))
    else (jsRange l.xs l.xe).map (fun n => (n, l.ys))
  else (jsRange l.xs l.xe).zip (jsRange l.ys l.ye)

/-- The overlap count the spec describes: the number of distinct grid
cells covered by two or more of the considered segments (all straight
segments, plus the diagonal ones when `diagonals` is set). -/
def specOverlapCount (lines : List Line) (diagonals : Bool) : Nat :=
  let considered := lines.filter
    (fun l => (l.xs = l.xe ∨ l.ys = l.ye) || diagonals)
  let candidates := (considered.flatMap pointsOf).dedup
  (candidates.filter
    (fun p => 2 ≤ considered.countP (fun l => decide (p ∈ pointsOf l)))).length

end Day05

set_option maxRecDepth 100000 in
example :
    Day05.part2
      [⟨0,9,5,9⟩, ⟨8,0,0,8⟩, ⟨9,4,3,4⟩, ⟨2,2,2,1⟩, ⟨7,0,7,4⟩, ⟨6,4,2,0⟩,
       ⟨0,9,2,9⟩, ⟨3,4,1,4⟩, ⟨0,0,8,8⟩, ⟨5,5,8,2⟩] = 12 := by decide

set_option maxRecDepth 100000 in
example :
    Day05.specOverlapCount
      [⟨0,9,5,9⟩, ⟨8,0,0,8⟩, ⟨9,4,3,4⟩, ⟨2,2,2,1⟩, ⟨7,0,7,4⟩, ⟨6,4,2,0⟩,
       ⟨0,9,2,9⟩, ⟨3,4,1,4⟩, ⟨0,0,8,8⟩, ⟨5,5,8,2⟩] true = 12 := by decide

example : Day05.part1 [⟨0,0,4,0⟩, ⟨2,0,4,0⟩] = 0 := by decide
example : Day05.specOverlapCount [⟨0,0,4,0⟩, ⟨2,0,4,0⟩] false = 3 := by decide

namespace Day04

/-- One board cell of src/day-04/index.js: `{ number: Number(s), marked: false }`. -/
structure Cell where
  number : JSNum
  marked : Bool
deriving DecidableEq

/-- The `Board` class of src/day-04/index.js: the grid, the two dimensions
stored by the constructor, and the `alreadyValidated` flag. -/
structure Board where
  numbers : List (List Cell)
  w : Nat
  h : Nat
  alreadyValidated : Bool
deriving DecidableEq

/-- The `Board` constructor: split the chunk into lines, split each line
on whitespace runs dropping empty pieces, convert each token with
`Number`; `w` is the number of rows, `h` the length of the first row
(`split('\n')` always returns at least one piece, so row `0` exists), and
the flag starts `false`. -/
def mkBoard (data : Str) : Board :=
  let numbers := (jsSplit '\n' data).map (fun line =>
    (jsSplitWsFiltered line).map (fun s => ({ number := jsNumber s, marked := false } : Cell)))
  { numbers := numbers, w := numbers.length, h := (numbers.headD []).length,
    alreadyValidated := false }

/-- `Board.draw`: for `i` below the stored `w` and `j` below the stored
`h`, mark cell `(i, j)` when its number equals the drawn number under
JavaScript `==` (so a `NaN` cell or draw never matches).  The two `none`
fallbacks are unreachable on boards whose grid has the stored dimensions
(on others the source would have thrown on reading `undefined.number`). -/
def Board.draw (b : Board) (n : JSNum) : Board :=
  { b with numbers :=
      (List.range b.w).foldl (fun g i =>
        (List.range b.h).foldl (fun g j =>
          match g.get? i with
          | some row =>
            match row.get? j with
            | some c =>
              if jsEqNum c.number n then g.set i (row.set j { c with marked := true }) else g
            | none => g
          | none => g) g) b.numbers }

/-- The first scan of `Board.isValid`: some column index `j < h` at which
every row is marked.  (Reading `sub[j]` off the end of a short row would
throw in the source; the default unmarked cell keeps the scan total and
agrees on boards with the stored dimensions.) -/
def Board.checkRows (b : Board) : Bool :=
  (List.range b.h).any (fun j =>
    b.numbers.all (fun sub => (sub.getD j { number := none, marked := false }).marked))

/-- The second scan of `Board.isValid`: some row index `i < w` whose row
is fully marked. -/
def Board.checkCols (b : Board) : Bool :=
  (List.range b.w).any (fun i => (b.numbers.getD i []).all (fun c => c.marked))

/-- The fresh row/column scan of `Board.isValid` (the two sequential
early-returning loops of the source, as their disjunction). -/
def Board.checkValid (b : Board) : Bool :=
  b.checkRows || b.checkCols

/-- `Board.isValid`: answer `true` immediately when `alreadyValidated` is
set; otherwise scan, setting the flag exactly when a fully-marked row or
column is found.  Returns the answer together with the board as the call
leaves it. -/
def Board.isValid (b : Board) : Bool × Board :=
  if b.alreadyValidated then (true, b)
  else if b.checkValid then (true, { b with alreadyValidated := true })
  else (false, b)

/-- `Board.unmarkedSum`: flatten the grid, an unmarked cell contributing
its number and a marked one `0`, and `reduce` with `+`.  (`reduce`
without a seed throws on an empty array — unreachable for a board with at
least one cell — modelled as `NaN`.) -/
def Board.unmarkedSum (b : Board) : JSNum :=
  match b.numbers.flatMap (fun sub =>
    sub.map (fun c => if !c.marked then c.number else some 0)) with
  | [] => none
  | x :: xs => xs.foldl jsAdd x

/-- The inner loop of `part1` over the boards for one drawn number:
draw into each board in order; the first board that then reports valid
aborts the pass (`Except.error`), otherwise the pass returns all boards
with the draw applied. -/
def part1Inner (n : JSNum) : List Board → Except Board (List Board)
  | [] => .ok []
  | b :: bs =>
    match (b.draw n).isValid with
    | (true, b2) => .error b2
    | (false, b2) =>
      match part1Inner n bs with
      | .error r => .error r
      | .ok bs2 => .ok (b2 :: bs2)

/-- The draw loop of `part1`: run the inner pass for each drawn number in
order; a found board ends the function with `unmarkedSum * n`; if the
draws run out with no valid board, the source reads
`undefined.unmarkedSum()` and throws (`none`). -/
def part1Go : List JSNum → List Board → Option JSNum
  | [], _ => none
  | n :: rest, bs =>
    match part1Inner n bs with
    | .error b => some (jsMul b.unmarkedSum n)
    | .ok bs2 => part1Go rest bs2

/-- `part1` of src/day-04/index.js. -/
def part1 (draws : List JSNum) (boards : List Board) : Option JSNum :=
  part1Go draws boards

/-- The boards after a list of draws has been applied in order. -/
def applyDraws (ds : List JSNum) (b : Board) : Board :=
  ds.foldl Board.draw b

/-- Board `b` completes at draw index `t` of `ds`: after the draws up to
and including index `t`, the fresh row/column scan succeeds. -/
def completesAt (ds : List JSNum) (t : Nat) (b : Board) : Bool :=
  (applyDraws (ds.take (t + 1)) b).checkValid

/-- The winner the claim describes: the earliest draw index at which some
board has a fully-marked row or column, and the first board (in board
order) that completes there. -/
def firstWinner (ds : List JSNum) (boards : List Board) : Option (Nat × Board) :=
  match (List.range ds.length).find? (fun t => boards.any (completesAt ds t)) with
  | none => none
  | some t =>
    match boards.find? (completesAt ds t) with
    | none => none
    | some b => some (t, b)

/-- Setting the `alreadyValidated` flag (the assignment `isValid` makes
when a fresh scan succeeds), as a named function so that equations about
it state cleanly. -/
def setFlag (b : Board) : Board :=
  { b with alreadyValidated := true }

/-- `part1` as the claim words it: the sum of the unmarked numbers of the
first board to complete, at its completion state, times the draw that
completed it. -/
def part1Claim (ds : List JSNum) (boards : List Board) : Option JSNum :=
  match firstWinner ds boards with
  | none => none
  | some (t, b) =>
    some (jsMul (applyDraws (ds.take (t + 1)) b).unmarkedSum (ds.getD t (some 0)))

/-- The inner loop of `part2` over the boards for one drawn number,
carrying the `completed` count, the last completed board and the draw
that completed it.  A board whose flag is already set is skipped
(`continue`).  Otherwise it is drawn into and checked; reaching
`completed == boards.length` ends the whole function (`Except.error`)
with the current board's `unmarkedSum * n`. -/
def part2Inner (total : Nat) (n : JSNum) :
    List Board → Nat → Option Board → Option JSNum →
    Except JSNum (List Board × Nat × Option Board × Option JSNum)
  | [], completed, lastC, lastD => .ok ([], completed, lastC, lastD)
  | b :: bs, completed, lastC, lastD =>
    if b.alreadyValidated then
      match part2Inner total n bs completed lastC lastD with
      | .error r => .error r
      | .ok (bs2, c2, l2, d2) => .ok (b :: bs2, c2, l2, d2)
    else
      match (b.draw n).isValid with
      | (true, b2) =>
        if completed + 1 = total then .error (jsMul b2.unmarkedSum n)
        else
          match part2Inner total n bs (completed + 1) (some b2) (some n) with
          | .error r => .error r
          | .ok (bs2, c2, l2, d2) => .ok (b2 :: bs2, c2, l2, d2)
      | (false, b2) =>
        if completed = total then .error (jsMul b2.unmarkedSum n)
        else
          match part2Inner total n bs completed lastC lastD with
          | .error r => .error r
          | .ok (bs2, c2, l2, d2) => .ok (b2 :: bs2, c2, l2, d2)

/-- The draw loop of `part2`; when the draws run out, the answer is the
last completed board's `unmarkedSum` times the draw that completed it
(reading `null.unmarkedSum()` throws when no board ever completed:
`none`). -/
def part2Go (total : Nat) :
    List JSNum → List Board → Nat → Option Board → Option JSNum → Option JSNum
  | [], _, _, lastC, lastD =>
    match lastC, lastD with
    | some b, some d => some (jsMul b.unmarkedSum d)
    | _, _ => none
  | n :: rest, bs, completed, lastC, lastD =>
    match part2Inner total n bs completed lastC lastD with
    | .error r => some r
    | .ok (bs2, c2, l2, d2) => part2Go total rest bs2 c2 l2 d2

/-- `part2` of src/day-04/index.js. -/
def part2 (draws : List JSNum) (boards : List Board) : Option JSNum :=
  part2Go boards.length draws boards 0 none none

/-- The `result2` line of src/day-04/index.js run on its own: `part2`
applied to boards freshly constructed from the raw chunks. -/
def run2Only (draws : List JSNum) (chunks : List Str) : Option JSNum :=
  part2 draws (chunks.map mkBoard)

/-- The main sequence of src/day-04/index.js: `part1` on one set of
boards built from the chunks, then `part2` on an independently built
set (`rawInput.map(chunk => new Board(chunk))` appears once per call). -/
def runBoth (draws : List JSNum) (chunks : List Str) : Option JSNum × Option JSNum :=
  (part1 draws (chunks.map mkBoard), part2 draws (chunks.map mkBoard))

end Day04

/-- `process.argv[2] || default`: the default stands in for an absent or
empty (falsy) argument. -/
def jsOrDefault (arg : Option Str) (d : Str) : Str :=
  match arg with
  | some s => if s = [] then d else s
  | none => d

namespace Day01

/-- Input-file resolution of src/day-01/index.js:
`readFileSync('./puzzle-input.txt')` — the command line is never
consulted. -/
def inputPath (_argv2 : Option Str) : Option Str :=
  some "./puzzle-input.txt".toList

end Day01

namespace Day03

/-- Input-file resolution of src/2021/day-03/index.js:
`readFileSync(process.argv[2])` — no default; an absent argument makes
`readFileSync(undefined)` throw (`none`). -/
def inputPath (argv2 : Option Str) : Option Str :=
  argv2

end Day03

namespace Dive

/-- Input-file resolution of the dive script:
`readFileSync(process.argv[2])` — no default; an absent argument makes
`readFileSync(undefined)` throw (`none`). -/
def inputPath (argv2 : Option Str) : Option Str :=
  argv2

end Dive

namespace Day04

/-- Input-file resolution of src/day-04/index.js:
`readFileSync(process.argv[2] || './puzzle-input.txt')`. -/
def inputPath (argv2 : Option Str) : Option Str :=
  some (jsOrDefault argv2 "./puzzle-input.txt".toList)

end Day04

namespace Day05

/-- Input-file resolution of src/day-05/index.js:
`readFileSync(process.argv[2] || './puzzle-input.txt')`. -/
def inputPath (argv2 : Option Str) : Option Str :=
  some (jsOrDefault argv2 "./puzzle-input.txt".toList)

/-- One-or-more decimal digits split off the front. -/
def takeDigits (cs : Str) : Str × Str :=
  (cs.takeWhile (·.isDigit), cs.dropWhile (·.isDigit))

/-- Consume one expected character. -/
def eatChar (c : Char) : Str → Option Str
  | x :: xs => if x = c then some xs else none
  | [] => none

/-- Consume one optional space (the regex pieces `, ?`, ` ?->` and
`-> ?`). -/
def eatOptSpace : Str → Str
  | ' ' :: xs => xs
  | xs => xs

/-- The line parser of src/day-05/index.js: match the anchored pattern
`^(\d+), ?(\d+) ?-> ?(\d+), ?(\d+)$` (deterministic: each digit run is
delimited by a non-digit, so no backtracking arises) and convert the four
groups.  A non-matching line makes the source destructure `null` and
throw, and the subsequent `isNaN` guard would throw as well: both are
`none`. -/
def parseVentLine (s : Str) : Option Day05.Line := do
  let (d1, r1) := takeDigits s
  guard (d1 ≠ [])
  let r2 ← eatChar ',' r1
  let r3 := eatOptSpace r2
  let (d2, r4) := takeDigits r3
  guard (d2 ≠ [])
  let r5 := eatOptSpace r4
  let r6 ← eatChar '-' r5
  let r7 ← eatChar '>' r6
  let r8 := eatOptSpace r7
  let (d3, r9) := takeDigits r8
  guard (d3 ≠ [])
  let r10 ← eatChar ',' r9
  let r11 := eatOptSpace r10
  let (d4, r12) := takeDigits r11
  guard (d4 ≠ [] ∧ r12 = [])
  pure ⟨natOfDigits d1, natOfDigits d2, natOfDigits d3, natOfDigits d4⟩

/-- The `.map` over the split lines: the first line whose parse throws
aborts the whole construction with that line's index, and no partial list
escapes. -/
def parseVentLines (i : Nat) : List Str → Except Nat (List Day05.Line)
  | [] => .ok []
  | l :: ls =>
    match parseVentLine l with
    | none => .error i
    | some x =>
      match parseVentLines (i + 1) ls with
      | .error j => .error j
      | .ok xs => .ok (x :: xs)

end Day05

namespace Day01

/-- `part2` of src/day-01/index.js over raw JavaScript number values
(`none` is `NaN`, the value day-01's own `map(Number)` produces for a
malformed line): the same loop as `part2`, with the window sums
left-associated JS additions (`NaN` contaminates) and the comparison
`windowB > windowA` false whenever either window is `NaN`.  An
out-of-range read would be `undefined`, which also turns a sum into
`NaN` (`none` default); the loop bound keeps every read in range. -/
def part2JS (data : List JSNum) : Nat :=
  (List.range (data.length - 3)).countP
    (fun i =>
      jsGt
        (jsAdd (jsAdd (data.getD (i + 1) none) (data.getD (i + 2) none)) (data.getD (i + 3) none))
        (jsAdd (jsAdd (data.getD (i + 0) none) (data.getD (i + 1) none)) (data.getD (i + 2) none)))

/-- The refinement claim's simpler function over the same value domain:
the count of indices `i` with `0 <= i < data.length - 3` such that
`data[i + 3] > data[i]` under the JS comparison. -/
def part2ClaimJS (data : List JSNum) : Nat :=
  (List.range (data.length - 3)).countP
    (fun i => jsGt (data.getD (i + 3) none) (data.getD i none))

end Day01

namespace Day04

/-- One operation a caller can perform on a `Board` after construction:
a `draw(n)` call, or an `isValid()` call (whose boolean answer the caller
may discard, keeping the board as the call leaves it). -/
inductive Op where
  | drawOp (n : JSNum)
  | checkOp
deriving DecidableEq

/-- Apply one operation to a board. -/
def applyOp (b : Board) : Op → Board
  | .drawOp n => b.draw n
  | .checkOp => b.isValid.2

/-- Apply a sequence of operations in order. -/
def applyOps (b : Board) (ops : List Op) : Board :=
  ops.foldl applyOp b

end Day04

/-! ### Theorems -/

/-- C3: on the numeric sequence `[199,200,208,210,200,207,240,269,260,263]`,
day-01 `part1` (the count of increases) returns `7` and day-01 `part2`
(the 3-wide sliding-window-sum variant) returns `5`. -/
theorem C3_day01_example_answers :
    Day01.part1 [199, 200, 208, 210, 200, 207, 240, 269, 260, 263] = 7 ∧
    Day01.part2 [199, 200, 208, 210, 200, 207, 240, 269, 260, 263] = 5 := by
  decide

/-- C4: on the instruction sequence `forward 5, down 5, forward 8, up 3,
down 8, forward 2`, the dive script's simple model (`part1`) returns
`150` and its aim-adjusted model (`part2`) returns `900`. -/
theorem C4_dive_example_answers :
    Dive.part1 Dive.exampleCourse = 150 ∧ Dive.part2 Dive.exampleCourse = 900 := by
  decide

/-- C6 (code bug): on the two straight overlapping segments
`0,0 -> 4,0` and `2,0 -> 4,0`, the cells `(2,0)`, `(3,0)` and `(4,0)` are
each covered by both segments, so the overlap count the claim describes
is `3`; the script's `part1` returns `0`.  The board is indexed by
`x * w + y` with `w = maxX + 1` and allocated with `h = maxY + 1` rows'
worth of cells, so on any grid wider than tall the straight-line writes
run past the end of the array, turn into `NaN`, and are never counted
(and on grids taller than wide distinct cells collide); the code only
counts correctly when the two maxima agree. -/
theorem C6_overlap_miscount :
    Day05.part1 [⟨0, 0, 4, 0⟩, ⟨2, 0, 4, 0⟩] = 0 ∧
    Day05.specOverlapCount [⟨0, 0, 4, 0⟩, ⟨2, 0, 4, 0⟩] false = 3 := by
  decide

/-- C7: the sliding-window count (day-01 `part2`), `getCommons` and
`part2` of 2021 day-03 are pure and deterministic — two calls on
identical input yield identical output.  Their sources mutate nothing
they are given: day-01 `part2` and `getCommons` only read their arrays,
and day-03 `part2` reassigns local spread-copies with the fresh arrays
`filter` returns, so each translates to the pure function stated on and
the repeated-call property is the equation below. -/
theorem C7_pure_functions :
    ∀ (data : List Int) (arr : List Str),
      Day01.part2 data = Day01.part2 data ∧
      Day03.getCommons arr = Day03.getCommons arr ∧
      Day03.part2 arr = Day03.part2 arr := by
  intro data arr
  exact ⟨rfl, rfl, rfl⟩

/-- C8: day-04's main sequence hands `part1` and `part2` independently
constructed boards built from the same raw chunks
(`rawInput.map(chunk => new Board(chunk))` once per call), so the value
`part2` computes is the same whether or not `part1` ran first: the second
component of running both equals running `part2` alone. -/
theorem C8_part2_independent_of_part1 :
    ∀ (draws : List JSNum) (chunks : List Str),
      (Day04.runBoth draws chunks).2 = Day04.run2Only draws chunks := by
  intro draws chunks
  rfl

namespace Day04

theorem draw_alreadyValidated (b : Board) (n : JSNum) :
    (b.draw n).alreadyValidated = b.alreadyValidated := rfl

theorem isValid_fst_of_flag (b : Board) (h : b.alreadyValidated = true) :
    b.isValid.1 = true := by
  simp [Board.isValid, h]

theorem isValid_snd_flag (b : Board) (h : b.isValid.1 = true) :
    b.isValid.2.alreadyValidated = true := by
  unfold Board.isValid at h ⊢
  cases hf : b.alreadyValidated with
  | true => simp [hf]
  | false =>
    cases hc : b.checkValid with
    | true => simp [hf, hc]
    | false => rw [hf, hc] at h; simp at h

theorem applyOp_flag (b : Board) (op : Op) (h : b.alreadyValidated = true) :
    (applyOp b op).alreadyValidated = true := by
  cases op with
  | drawOp n =>
    show (b.draw n).alreadyValidated = true
    rw [draw_alreadyValidated]; exact h
  | checkOp =>
    show (b.isValid.2).alreadyValidated = true
    simp [Board.isValid, h]

end Day04

/-- C10: board completion is monotone.  Once an `isValid()` call has
returned `true`, every later `isValid()` call on that board returns
`true`, whatever mix of `draw(n)` and `isValid()` calls happens in
between: the first `true` answer leaves `alreadyValidated` set, no
operation ever clears it, and a set flag short-circuits `isValid` to
`true`. -/
theorem C10_isValid_monotone :
    ∀ (b : Day04.Board) (ops : List Day04.Op),
      b.isValid.1 = true → ((Day04.applyOps b.isValid.2 ops).isValid).1 = true := by
  intro b ops h
  have hpersist : ∀ (ops : List Day04.Op) (c : Day04.Board),
      c.alreadyValidated = true → (Day04.applyOps c ops).alreadyValidated = true := by
    intro ops
    induction ops with
    | nil => intro c hc; exact hc
    | cons op ops ih => intro c hc; exact ih _ (Day04.applyOp_flag c op hc)
  exact Day04.isValid_fst_of_flag _ (hpersist ops _ (Day04.isValid_snd_flag b h))

/-- Witness for C10 at a concrete input: the 1×1 board whose single cell
is marked answers `true`, and still answers `true` after a further draw
and a further validity check. -/
theorem C10_witness :
    (Day04.Board.isValid ⟨[[⟨some 5, true⟩]], 1, 1, false⟩).1 = true ∧
    ((Day04.applyOps (Day04.Board.isValid ⟨[[⟨some 5, true⟩]], 1, 1, false⟩).2
        [Day04.Op.drawOp (some 7), Day04.Op.checkOp]).isValid).1 = true :=
  ⟨by decide,
   C10_isValid_monotone ⟨[[⟨some 5, true⟩]], 1, 1, false⟩
     [Day04.Op.drawOp (some 7), Day04.Op.checkOp] (by decide)⟩

namespace Day04

theorem isValid_true_case (b : Board) (hflag : b.alreadyValidated = false)
    (hc : b.checkValid = true) :
    b.isValid = (true, setFlag b) := by
  simp [Board.isValid, setFlag, hflag, hc]

theorem isValid_false_case (b : Board) (hflag : b.alreadyValidated = false)
    (hc : b.checkValid = false) :
    b.isValid = (false, b) := by
  simp [Board.isValid, hflag, hc]

theorem unmarkedSum_setFlag (b : Board) :
    (setFlag b).unmarkedSum = b.unmarkedSum := rfl

theorem applyDraws_cons (n : JSNum) (ds : List JSNum) (b : Board) :
    applyDraws (n :: ds) b = applyDraws ds (b.draw n) := rfl

theorem part1Inner_none (n : JSNum) :
    ∀ (bs : List Board), (∀ b ∈ bs, b.alreadyValidated = false) →
      bs.find? (fun b => (b.draw n).checkValid) = none →
      part1Inner n bs = .ok (bs.map (fun b => b.draw n)) := by
  intro bs
  induction bs with
  | nil => intro _ _; rfl
  | cons b bs ih =>
    intro hf hfind
    simp only [List.find?] at hfind
    have hflag : (b.draw n).alreadyValidated = false := by
      rw [draw_alreadyValidated]; exact hf b (List.mem_cons_self b bs)
    cases hp : (b.draw n).checkValid with
    | true => simp only [hp] at hfind; cases hfind
    | false =>
      simp only [hp] at hfind
      simp only [part1Inner]
      rw [isValid_false_case _ hflag hp,
        ih (fun x hx => hf x (List.mem_cons_of_mem b hx)) hfind]
      rfl

theorem part1Inner_found (n : JSNum) :
    ∀ (bs : List Board) (w : Board), (∀ b ∈ bs, b.alreadyValidated = false) →
      bs.find? (fun b => (b.draw n).checkValid) = some w →
      part1Inner n bs = .error (setFlag (w.draw n)) := by
  intro bs
  induction bs with
  | nil => intro w _ hfind; cases hfind
  | cons b bs ih =>
    intro w hf hfind
    simp only [List.find?] at hfind
    have hflag : (b.draw n).alreadyValidated = false := by
      rw [draw_alreadyValidated]; exact hf b (List.mem_cons_self b bs)
    cases hp : (b.draw n).checkValid with
    | true =>
      simp only [hp] at hfind
      cases hfind
      simp only [part1Inner]
      rw [isValid_true_case _ hflag hp]
    | false =>
      simp only [hp] at hfind
      simp only [part1Inner]
      rw [isValid_false_case _ hflag hp,
        ih w (fun x hx => hf x (List.mem_cons_of_mem b hx)) hfind]

theorem completesAt_zero (n : JSNum) (rest : List JSNum) :
    completesAt (n :: rest) 0 = fun b => (b.draw n).checkValid := rfl

theorem completesAt_succ (n : JSNum) (rest : List JSNum) (t : Nat) :
    completesAt (n :: rest) (t + 1) = fun b => completesAt rest t (b.draw n) := rfl

theorem part1Claim_cons_of_none (n : JSNum) (rest : List JSNum) (boards : List Board)
    (hb : boards.any (fun b => (b.draw n).checkValid) = false) :
    part1Claim (n :: rest) boards = part1Claim rest (boards.map (fun b => b.draw n)) := by
  unfold part1Claim firstWinner
  rw [List.length_cons, List.range_succ_eq_map]
  simp only [List.find?, completesAt_zero, hb, List.find?_map, Function.comp_def,
    Nat.succ_eq_add_one, completesAt_succ, List.any_map]
  cases hfind : (List.range rest.length).find?
      (fun t => boards.any fun b => completesAt rest t (b.draw n)) with
  | none => rfl
  | some t =>
    simp only [Option.map_some', Nat.succ_eq_add_one, completesAt_succ]
    cases hw : boards.find? (fun b => completesAt rest t (b.draw n)) with
    | none => rfl
    | some wb => rfl

theorem part1Claim_cons_of_found (n : JSNum) (rest : List JSNum) (boards : List Board)
    (w : Board) (hw : boards.find? (fun b => (b.draw n).checkValid) = some w) :
    part1Claim (n :: rest) boards = some (jsMul (w.draw n).unmarkedSum n) := by
  have hpw := List.find?_some hw
  have hb : boards.any (fun b => (b.draw n).checkValid) = true :=
    List.any_eq_true.mpr ⟨w, List.mem_of_find?_eq_some hw, hpw⟩
  unfold part1Claim firstWinner
  rw [List.length_cons, List.range_succ_eq_map]
  simp only [List.find?, completesAt_zero, hb, hw]
  rfl

end Day04

/-- C5: for every draw sequence and every collection of freshly
constructed boards (the `alreadyValidated` flags still unset), day-04
`part1` returns the sum of the unmarked numbers of the first board to
obtain a fully-marked row or column — first by draw index, ties broken by
board order, the board taken in its state at that point — multiplied by
the draw that completed it (JS `*` on possibly-`NaN` values), and throws
(`none`) when no board ever completes. -/
theorem C5_part1_first_winner :
    ∀ (ds : List JSNum) (boards : List Day04.Board),
      (∀ b ∈ boards, b.alreadyValidated = false) →
      Day04.part1 ds boards = Day04.part1Claim ds boards := by
  intro ds
  induction ds with
  | nil => intro boards _; rfl
  | cons n rest ih =>
    intro boards hf
    cases hb : boards.any (fun b => (b.draw n).checkValid) with
    | true =>
      obtain ⟨w, hw⟩ : ∃ w, boards.find? (fun b => (b.draw n).checkValid) = some w := by
        cases hfind : boards.find? (fun b => (b.draw n).checkValid) with
        | none =>
          obtain ⟨x, hx, hpx⟩ := List.any_eq_true.mp hb
          exact absurd hpx (List.find?_eq_none.mp hfind x hx)
        | some w => exact ⟨w, rfl⟩
      have hinner := Day04.part1Inner_found n boards w hf hw
      have hLHS : Day04.part1 (n :: rest) boards =
          some (jsMul (Day04.setFlag (w.draw n)).unmarkedSum n) := by
        show Day04.part1Go (n :: rest) boards = _
        simp only [Day04.part1Go]
        rw [hinner]
      rw [hLHS, Day04.unmarkedSum_setFlag, Day04.part1Claim_cons_of_found n rest boards w hw]
    | false =>
      have hfind : boards.find? (fun b => (b.draw n).checkValid) = none := by
        apply List.find?_eq_none.mpr
        intro x hx hpx
        have : boards.any (fun b => (b.draw n).checkValid) = true :=
          List.any_eq_true.mpr ⟨x, hx, hpx⟩
        rw [hb] at this
        cases this
      have hinner := Day04.part1Inner_none n boards hf hfind
      have hmapped : ∀ b ∈ boards.map (fun b => b.draw n), b.alreadyValidated = false := by
        intro x hxmem
        obtain ⟨a, ha, rfl⟩ := List.mem_map.mp hxmem
        rw [Day04.draw_alreadyValidated]; exact hf a ha
      show Day04.part1Go (n :: rest) boards = _
      simp only [Day04.part1Go]
      rw [hinner]
      have hstep := ih (boards.map (fun b => b.draw n)) hmapped
      show Day04.part1 rest (boards.map (fun b => b.draw n)) = _
      rw [hstep, ← Day04.part1Claim_cons_of_none n rest boards hb]

/-- Witness for C5 at a concrete input: drawing `1` then `2` on the two
2×2 boards `[[1,2],[3,4]]` and `[[5,6],[1,3]]` completes the first
board's top row at draw `2`, so both sides return `(3 + 4) * 2 = 14`. -/
theorem C5_witness :
    (∀ b ∈ ([⟨[[⟨some 1, false⟩, ⟨some 2, false⟩], [⟨some 3, false⟩, ⟨some 4, false⟩]],
              2, 2, false⟩,
             ⟨[[⟨some 5, false⟩, ⟨some 6, false⟩], [⟨some 1, false⟩, ⟨some 3, false⟩]],
              2, 2, false⟩] : List Day04.Board), b.alreadyValidated = false) ∧
    Day04.part1 [some 1, some 2, some 3]
      [⟨[[⟨some 1, false⟩, ⟨some 2, false⟩], [⟨some 3, false⟩, ⟨some 4, false⟩]], 2, 2, false⟩,
       ⟨[[⟨some 5, false⟩, ⟨some 6, false⟩], [⟨some 1, false⟩, ⟨some 3, false⟩]], 2, 2, false⟩] =
    Day04.part1Claim [some 1, some 2, some 3]
      [⟨[[⟨some 1, false⟩, ⟨some 2, false⟩], [⟨some 3, false⟩, ⟨some 4, false⟩]], 2, 2, false⟩,
       ⟨[[⟨some 5, false⟩, ⟨some 6, false⟩], [⟨some 1, false⟩, ⟨some 3, false⟩]], 2, 2, false⟩] :=
  ⟨by decide,
   C5_part1_first_winner [some 1, some 2, some 3]
     [⟨[[⟨some 1, false⟩, ⟨some 2, false⟩], [⟨some 3, false⟩, ⟨some 4, false⟩]], 2, 2, false⟩,
      ⟨[[⟨some 5, false⟩, ⟨some 6, false⟩], [⟨some 1, false⟩, ⟨some 3, false⟩]], 2, 2, false⟩]
     (by decide)⟩

theorem parseVentLines_first_error (bad : Str) (hbad : Day05.parseVentLine bad = none) :
    ∀ (pre post : List Str) (i : Nat),
      (∀ l ∈ pre, Day05.parseVentLine l ≠ none) →
      Day05.parseVentLines i (pre ++ bad :: post) = .error (i + pre.length) := by
  intro pre
  induction pre with
  | nil =>
    intro post i _
    simp only [List.nil_append, Day05.parseVentLines, hbad, List.length_nil, Nat.add_zero]
  | cons p pre ih =>
    intro post i hpre
    cases hx : Day05.parseVentLine p with
    | none => exact absurd hx (hpre p (List.mem_cons_self p pre))
    | some x =>
      have hrest := ih post (i + 1) (fun l hl => hpre l (List.mem_cons_of_mem p hl))
      show Day05.parseVentLines i ((p :: pre) ++ bad :: post) = _
      rw [List.cons_append]
      simp only [Day05.parseVentLines, hx, hrest]
      have harith : i + 1 + pre.length = i + (p :: pre).length := by
        simp [List.length_cons]; omega
      rw [harith]

/-- C1 (counterexample): the claim says every script's line parser raises
a fatal parse error on the first malformed line rather than converting it
to a placeholder.  The day-01 parser does the opposite: on the raw input
`"abc\n5"` it raises nothing and returns the full list `[NaN, 5]`, the
malformed line silently converted to the placeholder `NaN`
(`'abc'.split('\n').map(Number)` never throws). -/
theorem C1_counterexample :
    Day01.parseLines "abc\n5".toList = [none, some 5] := by
  decide

/-- C1 (amended): only the day-05 vents script's line parser is fatal on
malformed input: when every line before some malformed line matches the
pattern, parsing stops with an error naming exactly that first malformed
line's index, and no partial result is produced.  The day-01 parser (like
the day-04 and dive number conversions) never fails: it yields exactly
one (possibly-`NaN`) value per split line. -/
theorem C1_amended_only_day05_fatal :
    (∀ (pre post : List Str) (bad : Str),
        (∀ l ∈ pre, Day05.parseVentLine l ≠ none) →
        Day05.parseVentLine bad = none →
        Day05.parseVentLines 0 (pre ++ bad :: post) = .error pre.length) ∧
    (∀ raw : Str, (Day01.parseLines raw).length = (jsSplit '\n' raw).length) := by
  constructor
  · intro pre post bad hpre hbad
    have h := parseVentLines_first_error bad hbad pre post 0 hpre
    simpa using h
  · intro raw
    exact List.length_map _ _

/-- Witness for C1 (amended) at a concrete input: with one well-formed
line before it, the malformed line `"abc"` makes the day-05 parser fail
at index `1`. -/
theorem C1_witness :
    (∀ l ∈ (["0,9 -> 5,9".toList] : List Str), Day05.parseVentLine l ≠ none) ∧
    Day05.parseVentLine "abc".toList = none ∧
    Day05.parseVentLines 0 (["0,9 -> 5,9".toList] ++ "abc".toList :: []) = .error 1 :=
  ⟨by decide, by decide,
   C1_amended_only_day05_fatal.1 ["0,9 -> 5,9".toList] [] "abc".toList
     (by decide) (by decide)⟩

/-- C2 (counterexample): the claim says every script reads the file named
by an optional argument, with a fixed default when absent.  Two scripts
refute it: day-01 ignores an explicitly supplied `other.txt` and still
resolves its hard-coded `./puzzle-input.txt`, and 2021 day-03 with no
argument resolves no file at all (`readFileSync(process.argv[2])` throws)
instead of a default. -/
theorem C2_counterexample :
    Day01.inputPath (some "other.txt".toList) ≠ some "other.txt".toList ∧
    Day01.inputPath (some "other.txt".toList) = some "./puzzle-input.txt".toList ∧
    Day03.inputPath none = none := by
  refine ⟨?_, rfl, rfl⟩
  decide

/-- C2 (amended): day-04 and the day-05 vents script accept an optional
argument falling back to `./puzzle-input.txt` when it is absent (or
empty, JavaScript `||` being falsy-based); day-01 reads
`./puzzle-input.txt` unconditionally, ignoring any argument; 2021 day-03
and the dive script pass `process.argv[2]` straight to the read and fail
when it is absent. -/
theorem C2_amended_per_script_paths :
    ∀ (s : Str),
      Day04.inputPath none = some "./puzzle-input.txt".toList ∧
      Day04.inputPath (some s) = some (if s = [] then "./puzzle-input.txt".toList else s) ∧
      Day05.inputPath none = some "./puzzle-input.txt".toList ∧
      Day05.inputPath (some s) = some (if s = [] then "./puzzle-input.txt".toList else s) ∧
      Day01.inputPath none = some "./puzzle-input.txt".toList ∧
      Day01.inputPath (some s) = some "./puzzle-input.txt".toList ∧
      Day03.inputPath none = none ∧
      Day03.inputPath (some s) = some s ∧
      Dive.inputPath none = none ∧
      Dive.inputPath (some s) = some s := by
  intro s
  exact ⟨rfl, rfl, rfl, rfl, rfl, rfl, rfl, rfl, rfl, rfl⟩

/-- C9 (counterexample): the claimed equivalence fails over the values
the program actually computes on.  On `[0, NaN, 0, 1]` — `NaN` entries
being exactly what day-01's own `map(Number)` parser produces for a
malformed line — both window sums are `NaN`, so `windowB > windowA` is
false and `part2` returns `0`, while the endpoint comparison
`data[3] > data[0]` is `1 > 0` and the simpler count returns `1`. -/
theorem C9_counterexample :
    Day01.part2JS [some 0, none, some 0, some 1] = 0 ∧
    Day01.part2ClaimJS [some 0, none, some 0, some 1] = 1 := by
  decide

/-- C9 (amended): restricted to lists on which double arithmetic is
exact — every entry a non-`NaN` number of magnitude at most `2^51`, so
each three-wide window sum stays below `2^53` and JS addition and
comparison agree with exact integer arithmetic — day-01 `part2` returns
the same count as the simpler function counting the indices
`0 <= i < length - 3` with `data[i+3] > data[i]`: there the two shared
summands cancel.  (The magnitude bound delimits the modelled domain; the
cancellation itself is exact for any integers.) -/
theorem C9_amended_exact_domain :
    ∀ (data : List JSNum), (∀ x ∈ data, exactDouble x = true) →
      Day01.part2JS data = Day01.part2ClaimJS data := by
  intro data hall
  unfold Day01.part2JS Day01.part2ClaimJS
  refine List.countP_congr ?_
  intro i hi
  rw [List.mem_range] at hi
  have hget : ∀ m, m < data.length → ∃ k : Int, data.getD m none = some k := by
    intro m hm
    have hmem : data.get ⟨m, hm⟩ ∈ data := data.get_mem m hm
    have hx := hall _ hmem
    cases hx2 : data.get ⟨m, hm⟩ with
    | none => rw [hx2] at hx; simp [exactDouble] at hx
    | some k =>
      refine ⟨k, ?_⟩
      rw [show data.getD m none = (data.get? m).getD none from rfl,
        List.get?_eq_get hm, hx2]
      rfl
  obtain ⟨a, ha⟩ := hget i (by omega)
  obtain ⟨b, hb⟩ := hget (i + 1) (by omega)
  obtain ⟨c, hc⟩ := hget (i + 2) (by omega)
  obtain ⟨d, hd⟩ := hget (i + 3) (by omega)
  simp only [Nat.add_zero, ha, hb, hc, hd, jsAdd, jsGt, decide_eq_true_eq]
  omega

/-- Witness for C9 (amended) at a concrete input: on the first four
values of the spec's example sequence every entry is a small non-`NaN`
number, and both counts agree. -/
theorem C9_witness :
    (∀ x ∈ ([some 199, some 200, some 208, some 210] : List JSNum), exactDouble x = true) ∧
    Day01.part2JS [some 199, some 200, some 208, some 210] =
      Day01.part2ClaimJS [some 199, some 200, some 208, some 210] :=
  ⟨by decide,
   C9_amended_exact_domain [some 199, some 200, some 208, some 210] (by decide)⟩

